import Mathlib

/-!
Verification of the `rust-app` example (`src/examples/rust-app/src/main.rs`):
a shallow embedding of the build-metadata record, its pretty-printed JSON
serialization, and the program's standard-output behaviour, together with
proofs of the specified properties.
-/

namespace RustApp

/-- The `Info` struct from `src/examples/rust-app/src/main.rs`: three string
fields, declared in the order `name`, `version`, `platform`. -/
structure Info where
  name : String
  version : String
  platform : String
  deriving DecidableEq, Repr

/-- The build-time constants the program is compiled against:
`CARGO_PKG_NAME`, `CARGO_PKG_VERSION`, `std::env::consts::OS`,
`std::env::consts::ARCH`, and `VERGEN_GIT_SHA`. -/
structure BuildConsts where
  pkgName : String
  pkgVersion : String
  os : String
  arch : String
  gitSha : String
  deriving DecidableEq, Repr

/-- Construction of the `info` value at the start of `main`: plain field
assignment, with `platform` formatted as the OS string, a literal hyphen,
then the architecture string. -/
def mkInfo (c : BuildConsts) : Info :=
  { name := c.pkgName
    version := c.pkgVersion
    platform := c.os ++ "-" ++ c.arch }

/-- Lowercase hexadecimal digit, as in the serializer's escape table. -/
def hexDigit (n : Nat) : Char :=
  if n < 10 then Char.ofNat (48 + n) else Char.ofNat (87 + n)

/-- serde_json's default character escaping for string literals: quote and
backslash are escaped, the control characters backspace, tab, newline,
form feed and carriage return get their short escapes, every other control
character below 0x20 becomes a `\u00XX` escape, and all remaining
characters (including non-ASCII) are emitted verbatim. -/
def escChar (c : Char) : List Char :=
  if c = '"' then ['\\', '"']
  else if c = '\\' then ['\\', '\\']
  else if c = '\x08' then ['\\', 'b']
  else if c = '\t' then ['\\', 't']
  else if c = '\n' then ['\\', 'n']
  else if c = '\x0c' then ['\\', 'f']
  else if c = '\r' then ['\\', 'r']
  else if c.toNat < 32 then
    ['\\', 'u', '0', '0', hexDigit (c.toNat / 16), hexDigit (c.toNat % 16)]
  else [c]

/-- Escape every character of a string body. -/
def escList : List Char → List Char
  | [] => []
  | c :: rest => escChar c ++ escList rest

/-- A JSON string literal: opening quote, escaped body, closing quote. -/
def jquoteChars (l : List Char) : List Char :=
  '"' :: (escList l ++ ['"'])

/-- A JSON string literal, at the `String` level. -/
def jquote (s : String) : String :=
  String.mk (jquoteChars s.data)

/-- A serde map key. serde_json reports a serialization error when a map key
is not a string; the derived struct serializer only ever passes string
keys. The `nonStr` constructor stands for any non-string key. -/
inductive JKey where
  | str : String → JKey
  | nonStr : JKey
  deriving DecidableEq

/-- One `"key": value` line of a pretty-printed flat object, indented with
two spaces as serde_json's default pretty formatter does at nesting depth
one; fails if the key is not a string. -/
def serField : JKey × String → Except String String
  | (JKey.str k, v) => Except.ok ("  " ++ jquote k ++ ": " ++ jquote v)
  | (JKey.nonStr, _) => Except.error "key must be a string"

/-- Join the field lines with a comma and newline between them. -/
def joinFields : List String → String
  | [] => ""
  | [x] => x
  | x :: xs => x ++ ",\n" ++ joinFields xs

/-- serde_json's pretty printer for a flat object whose values are strings:
an empty object prints as braces; otherwise the brace lines surround one
indented line per field, in field order, separated by commas. -/
def serObjPretty (fields : List (JKey × String)) : Except String String :=
  match fields with
  | [] => Except.ok "\x7b\x7d"
  | _ => do
    let parts ← fields.mapM serField
    Except.ok ("\x7b\n" ++ joinFields parts ++ "\n\x7d")

/-- The field list produced by the derived `Serialize` impl for `Info`:
the struct's fields in declaration order. -/
def Info.toFields (i : Info) : List (JKey × String) :=
  [(JKey.str "name", i.name), (JKey.str "version", i.version),
   (JKey.str "platform", i.platform)]

/-- `serde_json::to_string_pretty(&info)`. -/
def to_string_pretty (i : Info) : Except String String :=
  serObjPretty i.toFields

/-- The attribution line printed by `main`. -/
def attribution : String :=
  "This binary was built using the HOPR Nix Library!"

/-- The Reporter half of `main`: given the serialization result and the
revision string, the bytes written to standard output. `unwrap` on an
`Err` aborts the process before anything after the banner is printed; the
abort is modelled by propagating the error with no fallback output. -/
def reporter (json : Except String String) (rev : String) :
    Except String String := do
  let j ← json
  Except.ok ("=== Rust App Example ===\n" ++ j ++ "\n\n" ++ attribution ++
    "\nGit revision: " ++ rev ++ "\n")

/-- `main`: standard output as a function of the build constants. -/
def mainOutput (c : BuildConsts) : Except String String :=
  reporter (to_string_pretty (mkInfo c)) c.gitSha

/-- `main` with the process's runtime inputs made explicit: the body of
`main` mentions neither the argument vector nor any runtime environment
variable, so the result only depends on the build constants. -/
def mainOutputRT (c : BuildConsts) (argv : List String)
    (envVars : List (String × String)) : Except String String :=
  mainOutput c

/-- Split a character list at newline characters (the line structure of the
printed output). -/
def splitNl : List Char → List (List Char)
  | [] => [[]]
  | c :: rest =>
    if c = '\n' then [] :: splitNl rest
    else
      match splitNl rest with
      | [] => [[c]]
      | h :: t => (c :: h) :: t

/-- The key of one pretty-printed line: the text between the first quote
character and the next one. Lines without a quote (the brace lines) have
no key. -/
def lineKey (l : List Char) : Option (List Char) :=
  match l.dropWhile (fun c => c ≠ '"') with
  | _ :: rest => some (rest.takeWhile (fun c => c ≠ '"'))
  | [] => none

/-- The keys of the serialized text, in the order they appear, one per line
that carries a key. -/
def fieldKeys (s : String) : List String :=
  ((splitNl s.data).filterMap lineKey).map String.mk

/-- Value of a hexadecimal digit character, if it is one. -/
def hexVal (c : Char) : Option Nat :=
  if '0' ≤ c ∧ c ≤ '9' then some (c.toNat - 48)
  else if 'a' ≤ c ∧ c ≤ 'f' then some (c.toNat - 87)
  else if 'A' ≤ c ∧ c ≤ 'F' then some (c.toNat - 55)
  else none

/-- The decode table for the named short escapes: escape letter on the
left, decoded character on the right. -/
def escPairs : List (Char × Char) :=
  [('"', '"'), ('\\', '\\'), ('/', '/'), ('b', '\x08'),
   ('t', '\t'), ('n', '\n'), ('f', '\x0c'), ('r', '\r')]

/-- Decode one escape sequence, given the characters after the backslash:
the named short escapes, and the `\u00XX` escapes the default formatter
produces. Returns the decoded character and the remaining characters. -/
def unescOne : List Char → Option (Char × List Char)
  | [] => none
  | e :: r =>
    match escPairs.find? (fun p => p.1 = e) with
    | some p => some (p.2, r)
    | none =>
      if e = 'u' then
        match r with
        | d0 :: d1 :: x1 :: x2 :: r3 =>
          if d0 = '0' ∧ d1 = '0' then
            match hexVal x1, hexVal x2 with
            | some a, some b => some (Char.ofNat (16 * a + b), r3)
            | _, _ => none
          else none
        | _ => none
      else none

lemma unescOne_length (l : List Char) (d : Char) (r : List Char)
    (h : unescOne l = some (d, r)) : r.length < l.length := by
  cases l with
  | nil => simp [unescOne] at h
  | cons e rest =>
    simp only [unescOne] at h
    split at h
    · rw [Option.some.injEq, Prod.mk.injEq] at h
      obtain ⟨rfl, rfl⟩ := h
      simp only [List.length_cons]
      omega
    · split_ifs at h
      all_goals try split at h
      all_goals try split_ifs at h
      all_goals try split at h
      all_goals try (rw [Option.some.injEq, Prod.mk.injEq] at h; obtain ⟨rfl, rfl⟩ := h; simp only [List.length_cons]; omega)
      all_goals simp at h

/-- Body of a JSON string literal, after the opening quote: read characters
up to the unescaped closing quote, decoding every escape the serializer can
emit. Returns the decoded body and the characters after the closing
quote. -/
def jstrBody (l : List Char) : Option (List Char × List Char) :=
  match l with
  | [] => none
  | c :: rest =>
    if c = '"' then some ([], rest)
    else if c = '\\' then
      match hu : unescOne rest with
      | none => none
      | some (d, rest2) =>
        have hlt : rest2.length < rest.length := unescOne_length rest d rest2 hu
        (jstrBody rest2).map (fun p => (d :: p.1, p.2))
    else (jstrBody rest).map (fun p => (c :: p.1, p.2))
termination_by l.length
decreasing_by
  · simp only [List.length_cons]; omega
  · simp only [List.length_cons]; omega

/-- A JSON string literal: an opening quote followed by a body. -/
def parseLit (l : List Char) : Option (String × List Char) :=
  match l with
  | '"' :: rest => (jstrBody rest).map (fun p => (String.mk p.1, p.2))
  | _ => none

/-- Consume an expected literal prefix. -/
def stripPre : List Char → List Char → Option (List Char)
  | [], l => some l
  | _ :: _, [] => none
  | p :: ps, c :: cs => if c = p then stripPre ps cs else none

/-- `serde_json::from_str::<Info>` on the exact text layout the pretty
printer emits: the derived `Deserialize` impl reads the three fields back,
fully decoding each string literal. -/
def parseInfo (s : String) : Option Info := do
  let l0 ← stripPre "\x7b\n  \"name\": ".data s.data
  let (n, l1) ← parseLit l0
  let l2 ← stripPre ",\n  \"version\": ".data l1
  let (v, l3) ← parseLit l2
  let l4 ← stripPre ",\n  \"platform\": ".data l3
  let (p, l5) ← parseLit l4
  let l6 ← stripPre "\n\x7d".data l5
  match l6 with
  | [] => some (Info.mk n v p)
  | _ => none

/-- The serialized text of an `Info`, as a character list: the fixed
template around the three escaped field values. -/
def prettyChars (i : Info) : List Char :=
  "\x7b\n  \"name\": ".data ++ (jquoteChars i.name.data ++
    (",\n  \"version\": ".data ++ (jquoteChars i.version.data ++
      (",\n  \"platform\": ".data ++ (jquoteChars i.platform.data ++
        "\n\x7d".data)))))

lemma hexVal_hexDigit (m : Nat) (hm : m < 16) : hexVal (hexDigit m) = some m := by
  interval_cases m <;> decide

lemma jstrBody_escList (l : List Char) :
    ∀ rest, jstrBody (escList l ++ ('"' :: rest)) = some (l, rest) := by
  induction l with
  | nil =>
    intro rest
    rw [show escList [] ++ '"' :: rest = '"' :: rest from by simp [escList]]
    rw [jstrBody]
    simp
  | cons c tl ih =>
    intro rest
    by_cases h1 : c = '"'
    · subst h1
      have hu : unescOne ('"' :: (escList tl ++ '"' :: rest)) =
          some ('"', escList tl ++ '"' :: rest) := by simp [unescOne, escPairs]
      rw [show escList ('"' :: tl) ++ '"' :: rest =
        '\\' :: '"' :: (escList tl ++ '"' :: rest) from by simp [escList, escChar]]
      rw [jstrBody]
      simp
      split <;> simp_all
    by_cases h2 : c = '\\'
    · subst h2
      have hu : unescOne ('\\' :: (escList tl ++ '"' :: rest)) =
          some ('\\', escList tl ++ '"' :: rest) := by simp [unescOne, escPairs]
      rw [show escList ('\\' :: tl) ++ '"' :: rest =
        '\\' :: '\\' :: (escList tl ++ '"' :: rest) from by simp [escList, escChar]]
      rw [jstrBody]
      simp
      split <;> simp_all
    by_cases h3 : c = '\x08'
    · subst h3
      have hu : unescOne ('b' :: (escList tl ++ '"' :: rest)) =
          some ('\x08', escList tl ++ '"' :: rest) := by simp [unescOne, escPairs]
      rw [show escList ('\x08' :: tl) ++ '"' :: rest =
        '\\' :: 'b' :: (escList tl ++ '"' :: rest) from by simp [escList, escChar]]
      rw [jstrBody]
      simp
      split <;> simp_all
    by_cases h4 : c = '\t'
    · subst h4
      have hu : unescOne ('t' :: (escList tl ++ '"' :: rest)) =
          some ('\t', escList tl ++ '"' :: rest) := by simp [unescOne, escPairs]
      rw [show escList ('\t' :: tl) ++ '"' :: rest =
        '\\' :: 't' :: (escList tl ++ '"' :: rest) from by simp [escList, escChar]]
      rw [jstrBody]
      simp
      split <;> simp_all
    by_cases h5 : c = '\n'
    · subst h5
      have hu : unescOne ('n' :: (escList tl ++ '"' :: rest)) =
          some ('\n', escList tl ++ '"' :: rest) := by simp [unescOne, escPairs]
      rw [show escList ('\n' :: tl) ++ '"' :: rest =
        '\\' :: 'n' :: (escList tl ++ '"' :: rest) from by simp [escList, escChar]]
      rw [jstrBody]
      simp
      split <;> simp_all
    by_cases h6 : c = '\x0c'
    · subst h6
      have hu : unescOne ('f' :: (escList tl ++ '"' :: rest)) =
          some ('\x0c', escList tl ++ '"' :: rest) := by simp [unescOne, escPairs]
      rw [show escList ('\x0c' :: tl) ++ '"' :: rest =
        '\\' :: 'f' :: (escList tl ++ '"' :: rest) from by simp [escList, escChar]]
      rw [jstrBody]
      simp
      split <;> simp_all
    by_cases h7 : c = '\r'
    · subst h7
      have hu : unescOne ('r' :: (escList tl ++ '"' :: rest)) =
          some ('\r', escList tl ++ '"' :: rest) := by simp [unescOne, escPairs]
      rw [show escList ('\r' :: tl) ++ '"' :: rest =
        '\\' :: 'r' :: (escList tl ++ '"' :: rest) from by simp [escList, escChar]]
      rw [jstrBody]
      simp
      split <;> simp_all
    by_cases h8 : c.toNat < 32
    · have ha : hexVal (hexDigit (c.toNat / 16)) = some (c.toNat / 16) :=
        hexVal_hexDigit _ (by omega)
      have hb : hexVal (hexDigit (c.toNat % 16)) = some (c.toNat % 16) :=
        hexVal_hexDigit _ (by omega)
      have hu : unescOne ('u' :: '0' :: '0' :: hexDigit (c.toNat / 16) ::
          hexDigit (c.toNat % 16) :: (escList tl ++ '"' :: rest)) =
          some (c, escList tl ++ '"' :: rest) := by
        simp only [unescOne, escPairs]
        simp [ha, hb]
        rw [show 16 * (c.toNat / 16) + c.toNat % 16 = c.toNat from by omega]
        exact Char.ofNat_toNat c
      rw [show escList (c :: tl) ++ '"' :: rest =
        '\\' :: ('u' :: '0' :: '0' :: hexDigit (c.toNat / 16) ::
          hexDigit (c.toNat % 16) :: (escList tl ++ '"' :: rest)) from by
        simp [escList, escChar, h1, h2, h3, h4, h5, h6, h7, h8]]
      rw [jstrBody]
      simp
      split <;> simp_all
    · rw [show escList (c :: tl) ++ '"' :: rest =
        c :: (escList tl ++ '"' :: rest) from by
        simp [escList, escChar, h1, h2, h3, h4, h5, h6, h7, h8]]
      rw [jstrBody]
      simp [h1, h2, ih]

lemma parseLit_jquote (l : List Char) (rest : List Char) :
    parseLit (jquoteChars l ++ rest) = some (String.mk l, rest) := by
  have : jquoteChars l ++ rest = '"' :: (escList l ++ ('"' :: rest)) := by
    simp [jquoteChars]
  rw [this]
  simp [parseLit, jstrBody_escList]

lemma stripPre_append (p r : List Char) : stripPre p (p ++ r) = some r := by
  induction p with
  | nil => simp [stripPre]
  | cons c cs ih => simp [stripPre, ih]

lemma stripPre_refl (p : List Char) : stripPre p p = some [] := by
  have h := stripPre_append p []
  simpa using h

lemma stripPre_cons (c : Char) (p l : List Char) :
    stripPre (c :: p) (c :: l) = stripPre p l := by
  simp [stripPre]

lemma data_mk (l : List Char) : (String.mk l).data = l := rfl

lemma mk_data (s : String) : String.mk s.data = s := rfl

lemma data_ext {a b : String} (h : a.data = b.data) : a = b := by
  cases a
  cases b
  exact congrArg String.mk h

lemma pretty_ok (i : Info) :
    to_string_pretty i = Except.ok (String.mk (prettyChars i)) := by
  have h1 : to_string_pretty i = Except.ok ("\x7b\n" ++
      joinFields ["  " ++ jquote "name" ++ ": " ++ jquote i.name,
        "  " ++ jquote "version" ++ ": " ++ jquote i.version,
        "  " ++ jquote "platform" ++ ": " ++ jquote i.platform] ++ "\n\x7d") := rfl
  rw [h1]
  congr 1
  apply data_ext
  simp [String.data_append, joinFields, jquote, data_mk, prettyChars,
    jquoteChars, escList, escChar]

lemma parseInfo_pretty (i : Info) :
    parseInfo (String.mk (prettyChars i)) = some i := by
  obtain ⟨n, v, p⟩ := i
  simp [parseInfo, data_mk, prettyChars, stripPre, stripPre_cons,
    parseLit_jquote, mk_data]

lemma hexDigit_ne_nl (m : Nat) (hm : m < 16) : hexDigit m ≠ '\n' := by
  interval_cases m <;> decide

lemma escChar_not_nl (c : Char) : '\n' ∉ escChar c := by
  by_cases h1 : c = '"'
  · subst h1; decide
  by_cases h2 : c = '\\'
  · subst h2; decide
  by_cases h3 : c = '\x08'
  · subst h3; decide
  by_cases h4 : c = '\t'
  · subst h4; decide
  by_cases h5 : c = '\n'
  · subst h5; decide
  by_cases h6 : c = '\x0c'
  · subst h6; decide
  by_cases h7 : c = '\r'
  · subst h7; decide
  by_cases h8 : c.toNat < 32
  · have ha := hexDigit_ne_nl (c.toNat / 16) (by omega)
    have hb := hexDigit_ne_nl (c.toNat % 16) (by omega)
    simp [escChar, h1, h2, h3, h4, h5, h6, h7, h8]
    exact ⟨fun h => ha h.symm, fun h => hb h.symm⟩
  · simp [escChar, h1, h2, h3, h4, h5, h6, h7, h8]
    exact fun h => h5 h.symm

lemma escList_not_nl (l : List Char) : '\n' ∉ escList l := by
  induction l with
  | nil => simp [escList]
  | cons c tl ih =>
    simp [escList]
    exact ⟨escChar_not_nl c, ih⟩

lemma jquoteChars_not_nl (l : List Char) : '\n' ∉ jquoteChars l := by
  simp [jquoteChars]
  exact escList_not_nl l

lemma splitNl_append (a : List Char) (b : List Char) (h : '\n' ∉ a) :
    splitNl (a ++ '\n' :: b) = a :: splitNl b := by
  induction a with
  | nil => simp [splitNl]
  | cons c tl ih =>
    have hc : ¬c = '\n' := fun hcc => h (by simp [hcc])
    have htl : '\n' ∉ tl := fun hm => h (by simp [hm])
    simp only [List.cons_append, splitNl, hc, if_false, List.append_eq, ih htl]

lemma splitNl_single (a : List Char) (h : '\n' ∉ a) : splitNl a = [a] := by
  induction a with
  | nil => simp [splitNl]
  | cons c tl ih =>
    have hc : ¬c = '\n' := fun hcc => h (by simp [hcc])
    have htl : '\n' ∉ tl := fun hm => h (by simp [hm])
    simp only [splitNl, hc, if_false, ih htl]

lemma fieldKeys_pretty (i : Info) :
    fieldKeys (String.mk (prettyChars i)) = ["name", "version", "platform"] := by
  have hline : prettyChars i = ['\x7b'] ++ '\n' ::
      (("  \"name\": ".data ++ jquoteChars i.name.data ++ [',']) ++ '\n' ::
        (("  \"version\": ".data ++ jquoteChars i.version.data ++ [',']) ++ '\n' ::
          (("  \"platform\": ".data ++ jquoteChars i.platform.data) ++ '\n' ::
            ['\x7d']))) := by
    simp [prettyChars]
  have h2 : '\n' ∉ "  \"name\": ".data ++ jquoteChars i.name.data ++ [','] := by
    simp
    exact jquoteChars_not_nl _
  have h3 : '\n' ∉ "  \"version\": ".data ++ jquoteChars i.version.data ++ [','] := by
    simp
    exact jquoteChars_not_nl _
  have h4 : '\n' ∉ "  \"platform\": ".data ++ jquoteChars i.platform.data := by
    simp
    exact jquoteChars_not_nl _
  have hsplit : splitNl (prettyChars i) = [['\x7b'],
      "  \"name\": ".data ++ jquoteChars i.name.data ++ [','],
      "  \"version\": ".data ++ jquoteChars i.version.data ++ [','],
      "  \"platform\": ".data ++ jquoteChars i.platform.data,
      ['\x7d']] := by
    rw [hline]
    rw [splitNl_append _ _ (by decide)]
    rw [splitNl_append _ _ h2]
    rw [splitNl_append _ _ h3]
    rw [splitNl_append _ _ h4]
    rw [splitNl_single _ (by decide)]
  have hk2 : lineKey ("  \"name\": ".data ++ jquoteChars i.name.data ++ [',']) =
      some "name".data := by
    simp [lineKey, jquoteChars, List.dropWhile, List.takeWhile]
  have hk3 : lineKey ("  \"version\": ".data ++ jquoteChars i.version.data ++ [',']) =
      some "version".data := by
    simp [lineKey, jquoteChars, List.dropWhile, List.takeWhile]
  have hk4 : lineKey ("  \"platform\": ".data ++ jquoteChars i.platform.data) =
      some "platform".data := by
    simp [lineKey, jquoteChars, List.dropWhile, List.takeWhile]
  simp [fieldKeys, data_mk, hsplit, hk2, hk3, hk4, lineKey]

/-- C1: with build constants name "rust-app", version "0.1.0", os "linux",
arch "x86_64" and revision "abc123", the program writes to standard output,
in order: the banner line, the structured block of exactly the five lines
of the pretty-printed record, a blank line, the literal attribution
sentence, and the line "Git revision: abc123". -/
theorem c1_end_to_end :
    mainOutput ⟨"rust-app", "0.1.0", "linux", "x86_64", "abc123"⟩ =
      Except.ok "=== Rust App Example ===\n\x7b\n  \"name\": \"rust-app\",\n  \"version\": \"0.1.0\",\n  \"platform\": \"linux-x86_64\"\n\x7d\n\nThis binary was built using the HOPR Nix Library!\nGit revision: abc123\n" ∧
    splitNl ("=== Rust App Example ===\n\x7b\n  \"name\": \"rust-app\",\n  \"version\": \"0.1.0\",\n  \"platform\": \"linux-x86_64\"\n\x7d\n\nThis binary was built using the HOPR Nix Library!\nGit revision: abc123\n").data =
      ["=== Rust App Example ===".data,
       "\x7b".data,
       "  \"name\": \"rust-app\",".data,
       "  \"version\": \"0.1.0\",".data,
       "  \"platform\": \"linux-x86_64\"".data,
       "\x7d".data,
       "".data,
       "This binary was built using the HOPR Nix Library!".data,
       "Git revision: abc123".data,
       "".data] := by
  exact ⟨rfl, by decide⟩

/-- C2: for every valid build configuration (non-empty, hyphen-free OS and
architecture identifiers), the constructed platform field is the OS string,
a literal hyphen, then the architecture string, and it contains exactly one
hyphen with both halves non-empty. -/
theorem c2_platform_shape (c : BuildConsts) (hos : c.os ≠ "")
    (harch : c.arch ≠ "") (hos2 : '-' ∉ c.os.data) (harch2 : '-' ∉ c.arch.data) :
    (mkInfo c).platform.data = c.os.data ++ '-' :: c.arch.data ∧
    ((mkInfo c).platform.data.count '-') = 1 ∧
    c.os.data ≠ [] ∧ c.arch.data ≠ [] := by
  have hdata : (mkInfo c).platform.data = c.os.data ++ '-' :: c.arch.data := by
    simp [mkInfo, String.data_append]
  refine ⟨hdata, ?_, ?_, ?_⟩
  · rw [hdata]
    rw [List.count_append]
    rw [List.count_eq_zero.mpr hos2]
    rw [List.count_cons]
    rw [List.count_eq_zero.mpr harch2]
    simp
  · intro h
    exact hos (data_ext h)
  · intro h
    exact harch (data_ext h)

/-- C2 witness: the linux/x86_64 configuration. -/
theorem c2_platform_shape_witness :
    (mkInfo ⟨"rust-app", "0.1.0", "linux", "x86_64", "abc123"⟩).platform.data =
      "linux".data ++ '-' :: "x86_64".data ∧
    ((mkInfo ⟨"rust-app", "0.1.0", "linux", "x86_64", "abc123"⟩).platform.data.count '-') = 1 ∧
    ("linux" : String).data ≠ [] ∧ ("x86_64" : String).data ≠ [] :=
  c2_platform_shape ⟨"rust-app", "0.1.0", "linux", "x86_64", "abc123"⟩
    (by decide) (by decide) (by decide) (by decide)

/-- C3: for every `Info` record the serialized text carries exactly the
three keys name, version, platform, in that fixed order, one per line,
whatever the field values are. -/
theorem c3_fixed_keys (i : Info) :
    ∃ s, to_string_pretty i = Except.ok s ∧
      fieldKeys s = ["name", "version", "platform"] :=
  ⟨String.mk (prettyChars i), pretty_ok i, fieldKeys_pretty i⟩

/-- C4: serialization succeeds for every `Info` record, so the error branch
of the unwrap is unreachable; and a hypothetical serialization failure
propagates as an immediate abort with no fallback output. -/
theorem c4_serialization_total :
    (∀ i : Info, ∃ s, to_string_pretty i = Except.ok s) ∧
    (∀ (e : String) (rev : String), reporter (Except.error e) rev = Except.error e) := by
  constructor
  · intro i
    exact ⟨String.mk (prettyChars i), pretty_ok i⟩
  · intro e rev
    rfl

/-- C5: serialization is a pure function of the three field values: records
with equal fields serialize to identical output. -/
theorem c5_deterministic (i j : Info) (hn : i.name = j.name)
    (hv : i.version = j.version) (hp : i.platform = j.platform) :
    to_string_pretty i = to_string_pretty j := by
  obtain ⟨a, b, c⟩ := i
  obtain ⟨a2, b2, c2⟩ := j
  cases hn
  cases hv
  cases hp
  rfl

/-- C5 witness: two identically-built records serialize identically. -/
theorem c5_deterministic_witness :
    to_string_pretty ⟨"rust-app", "0.1.0", "linux-x86_64"⟩ =
      to_string_pretty ⟨"rust-app", "0.1.0", "linux-x86_64"⟩ :=
  c5_deterministic ⟨"rust-app", "0.1.0", "linux-x86_64"⟩
    ⟨"rust-app", "0.1.0", "linux-x86_64"⟩ rfl rfl rfl

/-- C6: once constructed from valid build constants (Cargo guarantees a
non-empty package name and version), all three fields of the record are
non-empty; every read returns the value assigned at construction, and the
record handed to the reporter is exactly the constructed one (no mutation
between construction and use). -/
theorem c6_invariants (c : BuildConsts) (hn : c.pkgName ≠ "")
    (hv : c.pkgVersion ≠ "") :
    (mkInfo c).name ≠ "" ∧ (mkInfo c).version ≠ "" ∧ (mkInfo c).platform ≠ "" ∧
    (mkInfo c).name = c.pkgName ∧ (mkInfo c).version = c.pkgVersion ∧
    (mkInfo c).platform = c.os ++ "-" ++ c.arch ∧
    mainOutput c = reporter (to_string_pretty (mkInfo c)) c.gitSha := by
  refine ⟨hn, hv, ?_, rfl, rfl, rfl, rfl⟩
  intro h
  have hdata := congrArg String.data h
  simp [mkInfo, String.data_append] at hdata

/-- C6 witness: the sample build constants. -/
theorem c6_invariants_witness :
    (mkInfo ⟨"rust-app", "0.1.0", "linux", "x86_64", "abc123"⟩).name ≠ "" ∧
    (mkInfo ⟨"rust-app", "0.1.0", "linux", "x86_64", "abc123"⟩).version ≠ "" ∧
    (mkInfo ⟨"rust-app", "0.1.0", "linux", "x86_64", "abc123"⟩).platform ≠ "" ∧
    (mkInfo ⟨"rust-app", "0.1.0", "linux", "x86_64", "abc123"⟩).name = "rust-app" ∧
    (mkInfo ⟨"rust-app", "0.1.0", "linux", "x86_64", "abc123"⟩).version = "0.1.0" ∧
    (mkInfo ⟨"rust-app", "0.1.0", "linux", "x86_64", "abc123"⟩).platform =
      "linux" ++ "-" ++ "x86_64" ∧
    mainOutput ⟨"rust-app", "0.1.0", "linux", "x86_64", "abc123"⟩ =
      reporter (to_string_pretty (mkInfo ⟨"rust-app", "0.1.0", "linux", "x86_64", "abc123"⟩))
        "abc123" :=
  c6_invariants ⟨"rust-app", "0.1.0", "linux", "x86_64", "abc123"⟩
    (by decide) (by decide)

/-- C7: construction preserves the given field values exactly, in
particular for the test record of `test_info_creation`. -/
theorem c7_construction_identity (n v p : String) :
    (Info.mk n v p).name = n ∧ (Info.mk n v p).version = v ∧
    (Info.mk n v p).platform = p ∧
    (Info.mk "test" "1.0.0" "test-platform").name = "test" ∧
    (Info.mk "test" "1.0.0" "test-platform").version = "1.0.0" :=
  ⟨rfl, rfl, rfl, rfl, rfl⟩

/-- C8: the bytes written to standard output are a function of the build
constants alone: two runs of the same binary with different argument
vectors and different runtime environments produce identical output,
because the program logic reads neither. -/
theorem c8_runtime_independent (c : BuildConsts) (argv1 argv2 : List String)
    (env1 env2 : List (String × String)) :
    mainOutputRT c argv1 env1 = mainOutputRT c argv2 env2 := rfl

/-- C9: serialization followed by deserialization is the identity on
records: parsing the pretty-printed text of any `Info` yields the record
back. -/
theorem c9_roundtrip (i : Info) :
    ∃ s, to_string_pretty i = Except.ok s ∧ parseInfo s = some i :=
  ⟨String.mk (prettyChars i), pretty_ok i, parseInfo_pretty i⟩

/-- C10: only the final line depends on the revision: two builds differing
only in the revision string print the same banner, structured block, blank
line and attribution, and differ only in the text after "Git revision: ". -/
theorem c10_revision_frame (c : BuildConsts) (r1 r2 : String) :
    ∃ pre,
      mainOutput { c with gitSha := r1 } =
        Except.ok (pre ++ ("Git revision: " ++ (r1 ++ "\n"))) ∧
      mainOutput { c with gitSha := r2 } =
        Except.ok (pre ++ ("Git revision: " ++ (r2 ++ "\n"))) ∧
      ∃ json, to_string_pretty (mkInfo c) = Except.ok json ∧
        pre = "=== Rust App Example ===\n" ++
          (json ++ ("\n\n" ++ (attribution ++ "\n"))) := by
  have hshape : ∀ (j r : String),
      "=== Rust App Example ===\n" ++ j ++ "\n\n" ++ attribution ++
        "\nGit revision: " ++ r ++ "\n" =
      ("=== Rust App Example ===\n" ++ (j ++ ("\n\n" ++ (attribution ++ "\n")))) ++
        ("Git revision: " ++ (r ++ "\n")) := by
    intro j r
    apply data_ext
    simp [String.data_append]
  refine ⟨"=== Rust App Example ===\n" ++
      (String.mk (prettyChars (mkInfo c)) ++ ("\n\n" ++ (attribution ++ "\n"))),
    ?_, ?_, String.mk (prettyChars (mkInfo c)), pretty_ok (mkInfo c), rfl⟩
  · show reporter (to_string_pretty (mkInfo c)) r1 = _
    rw [pretty_ok (mkInfo c)]
    rw [show reporter (Except.ok (String.mk (prettyChars (mkInfo c)))) r1 =
      Except.ok ("=== Rust App Example ===\n" ++ String.mk (prettyChars (mkInfo c)) ++
        "\n\n" ++ attribution ++ "\nGit revision: " ++ r1 ++ "\n") from rfl]
    rw [hshape]
  · show reporter (to_string_pretty (mkInfo c)) r2 = _
    rw [pretty_ok (mkInfo c)]
    rw [show reporter (Except.ok (String.mk (prettyChars (mkInfo c)))) r2 =
      Except.ok ("=== Rust App Example ===\n" ++ String.mk (prettyChars (mkInfo c)) ++
        "\n\n" ++ attribution ++ "\nGit revision: " ++ r2 ++ "\n") from rfl]
    rw [hshape]

end RustApp

